import Mathlib

/-!
A shallow embedding of the persona-scoped memory store of `enhanced_memory.py`
(class `EnhancedMemory`) together with the two-pass retrieval merge of
`mo11y_agent.py` (`retrieve_memories`).  Table rows are Lean structures kept in
rowid (insertion) order; SQL filtering / ordering / limiting is modelled by
`List.filter`, a stable insertion sort, and `List.take`; SQLite's
ASCII-case-insensitive `LIKE '%pat%'` is modelled by `sqlLike`; real-valued
scores are modelled by rationals; timestamps are integers with the current time
passed explicitly where the source calls `datetime.now()` /
`CURRENT_TIMESTAMP`.
-/

/-- ASCII lower-casing of a single character (SQLite's `LIKE` folds only
the ASCII range). -/
def asciiLower (c : Char) : Char :=
  if 'A' ≤ c ∧ c ≤ 'Z' then Char.ofNat (c.toNat + 32) else c

/-- SQL `LIKE '%pat%'` with a wrapped pattern: ASCII-case-insensitive substring containment,
as SQLite evaluates the `LIKE` patterns built in `enhanced_memory.py`. -/
def sqlLike (s pat : String) : Bool :=
  decide ((pat.data.map asciiLower) <:+: (s.data.map asciiLower))

/-- Case-sensitive substring containment, modelling Python's `in` on strings
(used by `find_related_memories` for the check `"persona:" in target_persona`). -/
def strContains (s pat : String) : Bool :=
  decide (pat.data <:+: s.data)

/-- Python truthiness of an optional string (`if persona:` — `None` and `""`
are falsy). -/
def pyTruthyStr : Option String → Bool
  | none => false
  | some s => s ≠ ""

/-- Python truthiness of an optional integer (`if days_back:` — `None` and `0`
are falsy). -/
def pyTruthyInt : Option Int → Bool
  | none => false
  | some d => d ≠ 0

/-- Fuel-driven worker for Python's `str.split(sep)` with a non-empty
separator: scans left to right, consuming non-overlapping occurrences of
`sep`.  The fuel is the length of the scanned list, so it never runs out. -/
def pySplitAux (sep : List Char) : Nat → List Char → List Char → List (List Char)
  | 0, l, acc => [acc.reverse ++ l]
  | _ + 1, [], acc => [acc.reverse]
  | fuel + 1, c :: rest, acc =>
    if sep.isPrefixOf (c :: rest) then
      acc.reverse :: pySplitAux sep fuel (List.drop sep.length (c :: rest)) []
    else
      pySplitAux sep fuel rest (c :: acc)

/-- Python's `s.split(sep)` for a non-empty separator `sep`. -/
def pySplit (s sep : String) : List String :=
  (pySplitAux sep.data s.data.length s.data []).map List.asString

/-- Python's `s.strip()`: drop leading and trailing whitespace. -/
def pyStrip (s : String) : String :=
  ((((s.data.dropWhile Char.isWhitespace).reverse).dropWhile
      Char.isWhitespace).reverse).asString

/-- Worker for Python's whitespace `str.split()`: accumulates the current word
(reversed) and emits it at each whitespace run or at the end. -/
def pyWordsAux : List Char → List Char → List (List Char)
  | [], acc => if acc.isEmpty then [] else [acc.reverse]
  | c :: rest, acc =>
    if c.isWhitespace then
      if acc.isEmpty then pyWordsAux rest [] else acc.reverse :: pyWordsAux rest []
    else
      pyWordsAux rest (c :: acc)

/-- Python's `s.split()` (split on whitespace runs, no empty parts). -/
def pyWords (s : String) : List String :=
  (pyWordsAux s.data []).map List.asString

/-- Python's `s.lower()` restricted to ASCII (the contents exercised here). -/
def pyLower (s : String) : String :=
  (s.data.map asciiLower).asString

/-- Encoding of a list of tag strings as `json.dumps` renders it, for tags containing no characters that need
escaping: `["a", "b"]` style, with the default `", "` separator. -/
def jsonDumpList (ts : List String) : String :=
  "[" ++ String.intercalate (", ") (ts.map (fun t => "\"" ++ t ++ "\"")) ++ "]"

/-- Insert `x` into `l` keeping every leading element `y` with `le y x` before
it: the insertion step of a stable insertion sort. -/
def insertOrd (le : α → α → Bool) (x : α) : List α → List α
  | [] => [x]
  | y :: ys => if le y x then y :: insertOrd le x ys else x :: y :: ys

/-- Stable sort by the total preorder `le`: rows tied under `le` keep their
original (rowid) order, as SQLite's `ORDER BY` does for table scans. -/
def sortBy (le : α → α → Bool) (l : List α) : List α :=
  l.foldl (fun acc x => insertOrd le x acc) []

/-- One row of `episodic_memories`.  `tags` is the JSON column: `none` models
SQL `NULL` (stored when the Python caller passes no tags), `some ts` models
the `json.dumps` of a non-empty tag list. -/
structure EpisodicRow where
  id : Nat
  timestamp : Int
  content : String
  context : String
  importance : ℚ
  valence : ℚ
  arousal : ℚ
  tags : Option (List String)
  relationshipContext : String
  consolidated : Bool
deriving Repr, DecidableEq

/-- One row of `semantic_memories`. -/
structure SemanticRow where
  id : Nat
  key : String
  value : String
  confidence : ℚ
  sourceMemoryId : Option Nat
  lastAccessed : Option Int
  accessCount : Nat
  createdAt : Int
deriving Repr, DecidableEq

/-- One row of `emotional_memories` (the fields retention touches). -/
structure EmotionalRow where
  id : Nat
  memoryId : Option Nat
deriving Repr, DecidableEq

/-- One row of `media_memories` (the fields retention touches). -/
structure MediaRow where
  id : Nat
  memoryId : Nat
deriving Repr, DecidableEq

/-- One row of `memory_associations`. -/
structure AssocRow where
  memoryId1 : Nat
  memoryId2 : Nat
deriving Repr, DecidableEq

/-- One row of `user_preferences`. -/
structure PrefRow where
  category : String
  key : String
  value : String
  confidence : ℚ
  lastUpdated : Int
deriving Repr, DecidableEq

/-- The database state: each table in rowid (insertion) order, plus the next
AUTOINCREMENT ids. -/
structure Db where
  episodic : List EpisodicRow
  semantic : List SemanticRow
  emotional : List EmotionalRow
  media : List MediaRow
  assocs : List AssocRow
  prefs : List PrefRow
  nextEpisodicId : Nat
  nextSemanticId : Nat
deriving Repr, DecidableEq

/-- A freshly initialised store (`init_database` creates empty tables). -/
def emptyDb : Db :=
  { episodic := [], semantic := [], emotional := [], media := [], assocs := []
    prefs := [], nextEpisodicId := 1, nextSemanticId := 1 }

/-- The tags column written by `remember_episodic`:
`tags_str = json.dumps(tags) if tags else None`. -/
def tagsColumn (tags : List String) : Option (List String) :=
  if tags.isEmpty then none else some tags

/-- Model of `EnhancedMemory.remember_episodic`: inserts one row (no validation, no
clamping — the SQL `INSERT` stores the arguments as given) and returns
`cursor.lastrowid`. -/
def rememberEpisodic (db : Db) (now : Int) (content : String) (context : String)
    (importance : ℚ) (valence : ℚ) (arousal : ℚ) (tags : List String)
    (relationshipContext : String) : Db × Nat :=
  let row : EpisodicRow :=
    { id := db.nextEpisodicId, timestamp := now, content := content
      context := context, importance := importance, valence := valence
      arousal := arousal, tags := tagsColumn tags
      relationshipContext := relationshipContext, consolidated := false }
  ({ db with episodic := db.episodic ++ [row]
             nextEpisodicId := db.nextEpisodicId + 1 }, db.nextEpisodicId)

/-- Model of `EnhancedMemory.remember_semantic`: `INSERT OR REPLACE` keyed on `key`.
The `access_count` expression reads the pre-statement count
(`COALESCE((SELECT access_count ... WHERE key = ?), 0) + 1`); the replaced
row is deleted and the new row appended with a fresh rowid,
`last_accessed = CURRENT_TIMESTAMP` and the default `created_at`. -/
def rememberSemantic (db : Db) (now : Int) (key : String) (value : String)
    (confidence : ℚ) (sourceMemoryId : Option Nat) : Db :=
  let prior := ((db.semantic.find? (fun r => r.key = key)).map
    (fun r => r.accessCount)).getD 0
  let row : SemanticRow :=
    { id := db.nextSemanticId, key := key, value := value
      confidence := confidence, sourceMemoryId := sourceMemoryId
      lastAccessed := some now, accessCount := prior + 1, createdAt := now }
  { db with semantic := (db.semantic.filter (fun r => r.key ≠ key)) ++ [row]
            nextSemanticId := db.nextSemanticId + 1 }

/-- Does an episodic row pass a `tags LIKE '%t%'` test for tag `t`?  A `NULL`
tags column never matches. -/
def tagLikeMatch (tags : Option (List String)) (t : String) : Bool :=
  match tags with
  | none => false
  | some ts => sqlLike (jsonDumpList ts) t

/-- The `WHERE` clause of `recall_episodic` applied to one row. -/
def recallEpisodicPred (now : Int) (minImportance : ℚ) (tags : List String)
    (daysBack : Option Int) (persona : Option String) (r : EpisodicRow) : Bool :=
  (minImportance ≤ r.importance) &&
  (if pyTruthyStr persona then
      sqlLike r.relationshipContext ("persona:" ++ persona.getD (""))
    else true) &&
  (if pyTruthyInt daysBack then now - daysBack.getD 0 ≤ r.timestamp else true) &&
  (if tags.isEmpty then true else tags.any (fun t => tagLikeMatch r.tags t))

/-- Ordering `ORDER BY importance_score DESC, timestamp DESC` as a total preorder. -/
def epLe (a b : EpisodicRow) : Bool :=
  decide (b.importance < a.importance ∨
    (a.importance = b.importance ∧ b.timestamp ≤ a.timestamp))

/-- Model of `EnhancedMemory.recall_episodic`: filter, order by
`importance_score DESC, timestamp DESC`, `LIMIT limit`.  The optional
persona filter is the substring test `relationship_context LIKE
'%persona:<name>%'`; `days_back` keeps rows with
`timestamp >= now - days_back`; tags OR-match the JSON tags column. -/
def recallEpisodic (db : Db) (now : Int) (limit : Nat) (minImportance : ℚ)
    (tags : List String) (daysBack : Option Int) (persona : Option String) :
    List EpisodicRow :=
  (sortBy epLe (db.episodic.filter
    (recallEpisodicPred now minImportance tags daysBack persona))).take limit

/-- The record `recall_semantic` returns for a found key (built from the row
as it was **before** this call's own access bump). -/
structure SemanticRecord where
  key : String
  value : String
  confidence : ℚ
  lastAccessed : Option Int
  accessCount : Nat
deriving Repr, DecidableEq

/-- Model of `EnhancedMemory.recall_semantic` with a key: `SELECT` the row, then — only
when found — `UPDATE` its `last_accessed`/`access_count` in place; the value
returned is built from the previously fetched row, so it carries the
pre-increment `access_count`/`last_accessed`.  A missing key returns the
Python `{}` (here `none`) and leaves the store unchanged. -/
def recallSemanticKey (db : Db) (now : Int) (key : String) :
    Option SemanticRecord × Db :=
  match db.semantic.find? (fun r => r.key = key) with
  | none => (none, db)
  | some row =>
    let db' := { db with semantic := db.semantic.map (fun r =>
      if r.key = key then
        { r with lastAccessed := some now, accessCount := r.accessCount + 1 }
      else r) }
    (some { key := row.key, value := row.value, confidence := row.confidence,
            lastAccessed := row.lastAccessed, accessCount := row.accessCount },
     db')

/-- Model of `EnhancedMemory.recall_semantic` with no key: all facts ordered by
`access_count DESC, last_accessed DESC` (no access bump on this path). -/
def recallSemanticAll (db : Db) : List (String × String × ℚ) :=
  (sortBy (fun a b : SemanticRow =>
      decide (b.accessCount < a.accessCount) ||
        (a.accessCount == b.accessCount &&
          match a.lastAccessed, b.lastAccessed with
          | some x, some y => decide (y ≤ x)
          | some _, none => true
          | none, some _ => false
          | none, none => true))
    db.semantic).map (fun r => (r.key, r.value, r.confidence))

/-- The record `get_preference` returns. -/
structure PrefRecord where
  key : String
  value : String
  confidence : ℚ
  lastUpdated : Int
deriving Repr, DecidableEq

/-- Model of `EnhancedMemory.get_preference`: a keyed lookup that returns `None`
(here `none`) when no row matches. -/
def getPreference (db : Db) (category : String) (key : String) :
    Option PrefRecord :=
  (db.prefs.find? (fun p => p.category = category && p.key = key)).map
    (fun p => { key := p.key, value := p.value, confidence := p.confidence,
                lastUpdated := p.lastUpdated })

/-- Model of `EnhancedMemory.update_preference`: `INSERT OR REPLACE` on the composite
key `(category, preference_key)`. -/
def updatePreference (db : Db) (now : Int) (category : String) (key : String)
    (value : String) (confidence : ℚ) : Db :=
  { db with prefs :=
      (db.prefs.filter (fun p => !(p.category = category && p.key = key))) ++
        [{ category := category, key := key, value := value,
           confidence := confidence, lastUpdated := now }] }

/-- The rows `consolidate_memories` selects: `consolidated = 0 AND
timestamp < now - days_threshold`, ordered by `importance_score DESC`. -/
def consolidationSelection (db : Db) (now : Int) (daysThreshold : Int) :
    List EpisodicRow :=
  sortBy (fun a b => decide (b.importance ≤ a.importance))
    (db.episodic.filter (fun r =>
      !r.consolidated && decide (r.timestamp < now - daysThreshold)))

/-- Mark one episodic row consolidated
(`UPDATE episodic_memories SET consolidated = 1 WHERE id = ?`). -/
def markConsolidated (db : Db) (i : Nat) : Db :=
  { db with episodic := db.episodic.map (fun r =>
      if r.id = i then { r with consolidated := true } else r) }

/-- One iteration of the loop in `consolidate_memories`: for a selected row,
upsert a semantic fact when `importance > 0.7`, then mark the row
consolidated. -/
def consolidationStep (now : Int) (db : Db) (r : EpisodicRow) : Db :=
  let db' :=
    if mkRat 7 10 < r.importance then
      rememberSemantic db now ("important_event_" ++ toString r.id) r.content
        r.importance (some r.id)
    else db
  markConsolidated db' r.id

/-- Model of `EnhancedMemory.consolidate_memories`: process every selected row in
order. -/
def consolidateMemories (db : Db) (now : Int) (daysThreshold : Int) : Db :=
  (consolidationSelection db now daysThreshold).foldl (consolidationStep now) db

/-- The record `find_related_memories` returns per row. -/
structure RelatedRecord where
  id : Nat
  content : String
  importanceScore : ℚ
deriving Repr, DecidableEq

/-- The persona `find_related_memories` actually filters with: the supplied
one when truthy; otherwise, when the target's `relationship_context` is
non-empty and contains `"persona:"`, the parse
`ctx.split("persona:")[-1].split("|")[0].strip()`; otherwise the supplied
value unchanged. -/
def effectivePersona (persona : Option String) (targetCtx : String) :
    Option String :=
  if !pyTruthyStr persona && targetCtx ≠ "" then
    if strContains targetCtx ("persona:") then
      some (pyStrip
        ((pySplit ((pySplit targetCtx ("persona:")).getLastD ("")) ("|")).headD ("")))
    else persona
  else persona

/-- Ordering `ORDER BY importance_score DESC` as a total preorder. -/
def impLe (a b : EpisodicRow) : Bool :=
  decide (b.importance ≤ a.importance)

/-- Model of `EnhancedMemory.find_related_memories`.  A missing target returns `[]`.
Otherwise rows of the same store are matched by tag overlap (when the target
has tags) or by `LIKE` containment of the first five whitespace-split,
lower-cased tokens of the target's content (deduplicated, Python `set`);
a tag-less target with no tokens makes the keyword `OR` clause empty, which
is a SQL syntax error (`sqlite3.OperationalError`), modelled as `.error`. -/
def findRelatedMemories (db : Db) (memoryId : Nat) (limit : Nat)
    (persona : Option String) : Except String (List RelatedRecord) :=
  match db.episodic.find? (fun r => r.id = memoryId) with
  | none => .ok []
  | some target =>
    let p := effectivePersona persona target.relationshipContext
    let personaCond : EpisodicRow → Bool := fun r =>
      if pyTruthyStr p then
        sqlLike r.relationshipContext ("persona:" ++ p.getD (""))
      else true
    let targetTags := target.tags.getD []
    if targetTags.isEmpty then
      let keywords := (((pyWords (pyLower target.content)).take 5).eraseDups)
      if keywords.isEmpty then
        .error ("sqlite3.OperationalError")
      else
        .ok (((sortBy impLe (db.episodic.filter (fun r =>
            r.id ≠ memoryId &&
            keywords.any (fun kw => sqlLike r.content kw) &&
            personaCond r))).take limit).map (fun r =>
          { id := r.id, content := r.content, importanceScore := r.importance }))
    else
      .ok (((sortBy impLe (db.episodic.filter (fun r =>
          r.id ≠ memoryId &&
          targetTags.any (fun t => tagLikeMatch r.tags t) &&
          personaCond r))).take limit).map (fun r =>
        { id := r.id, content := r.content, importanceScore := r.importance }))

/-- The episodic ids `clear_old_memories` selects for deletion:
`timestamp < now - days_old AND importance_score < min_importance`. -/
def clearOldSelection (db : Db) (now : Int) (daysOld : Int)
    (minImportance : ℚ) : List Nat :=
  (db.episodic.filter (fun r =>
    decide (r.timestamp < now - daysOld) &&
      decide (r.importance < minImportance))).map (fun r => r.id)

/-- Model of `EnhancedMemory.clear_old_memories`: select old low-importance episodic
ids; when none, return the all-zero count map untouched; otherwise cascade
deletes through `memory_associations`, `media_memories`, `emotional_memories`
and `semantic_memories` (by `source_memory_id`), then delete the episodic
rows, returning the per-table deletion counts in Python dict order. -/
def clearOldMemories (db : Db) (now : Int) (daysOld : Int)
    (minImportance : ℚ) : Db × List (String × Nat) :=
  let memoryIds := clearOldSelection db now daysOld minImportance
  if memoryIds.isEmpty then
    (db, [("episodic", 0), ("semantic", 0), ("emotional", 0), ("media", 0)])
  else
    let deletedAssocs := db.assocs.filter (fun a =>
      a.memoryId1 ∈ memoryIds || a.memoryId2 ∈ memoryIds)
    let deletedMedia := db.media.filter (fun m => m.memoryId ∈ memoryIds)
    let deletedEmotional := db.emotional.filter (fun e =>
      match e.memoryId with
      | none => false
      | some i => i ∈ memoryIds)
    let deletedSemantic := db.semantic.filter (fun s =>
      match s.sourceMemoryId with
      | none => false
      | some i => i ∈ memoryIds)
    ({ db with
        assocs := db.assocs.filter (fun a =>
          !(a.memoryId1 ∈ memoryIds || a.memoryId2 ∈ memoryIds)),
        media := db.media.filter (fun m => !(m.memoryId ∈ memoryIds)),
        emotional := db.emotional.filter (fun e =>
          match e.memoryId with
          | none => true
          | some i => !(i ∈ memoryIds)),
        semantic := db.semantic.filter (fun s =>
          match s.sourceMemoryId with
          | none => true
          | some i => !(i ∈ memoryIds)),
        episodic := db.episodic.filter (fun r => !(r.id ∈ memoryIds)) },
     [("episodic", memoryIds.length), ("associations", deletedAssocs.length),
      ("media", deletedMedia.length), ("emotional", deletedEmotional.length),
      ("semantic", deletedSemantic.length)])

/-- The episodic part of `Mo11yAgent.retrieve_memories`: Pass A (topic pass)
only when there are topics (`tags=topics[:3]`, `min_importance=0.3`,
`days_back=30`, `limit=3`), Pass B (recency pass, `min_importance=0.5`,
`days_back=7`, `limit=2`), then the first-occurrence-by-id dedup loop and the
`[:5]` cap. -/
def dedupByIdGo : List Nat → List EpisodicRow → List EpisodicRow
  | _, [] => []
  | seen, m :: rest =>
    if m.id ∈ seen then dedupByIdGo seen rest
    else m :: dedupByIdGo (m.id :: seen) rest

/-- The `seen_ids` dedup loop of `retrieve_memories`: keep the first
occurrence of each id. -/
def dedupById (l : List EpisodicRow) : List EpisodicRow :=
  dedupByIdGo [] l

/-- Model of `Mo11yAgent.retrieve_memories`, restricted to the episodic bundle it
assembles (the state this claim set is about). -/
def retrieveMemories (db : Db) (now : Int) (topics : List String)
    (personaName : String) : List EpisodicRow :=
  let topicMemories :=
    if topics.isEmpty then []
    else recallEpisodic db now 3 (mkRat 3 10) (topics.take 3) (some 30)
      (some personaName)
  let recentMemories :=
    recallEpisodic db now 2 (mkRat 1 2) [] (some 7) (some personaName)
  (dedupById (topicMemories ++ recentMemories)).take 5

/-- Modelled from the spec's description of Pass A (the topic pass): rows of
the persona whose tags OR-match a supplied topic, importance at least `0.3`,
at most 30 days old, ordered by importance then timestamp descending, capped
at 3.  Stated independently of `retrieveMemories` to compare the code with
the spec's merge description. -/
def passASpec (db : Db) (now : Int) (topics : List String) (p : String) :
    List EpisodicRow :=
  (sortBy epLe (db.episodic.filter (fun r =>
    sqlLike r.relationshipContext ("persona:" ++ p) &&
    (topics.take 3).any (fun t => tagLikeMatch r.tags t) &&
    decide (mkRat 3 10 ≤ r.importance) &&
    decide (now - 30 ≤ r.timestamp)))).take 3

/-- Modelled from the spec's description of Pass B (the recency pass): rows of
the persona with importance at least `0.5`, at most 7 days old, no tag
filter, same ordering, capped at 2. -/
def passBSpec (db : Db) (now : Int) (p : String) : List EpisodicRow :=
  (sortBy epLe (db.episodic.filter (fun r =>
    sqlLike r.relationshipContext ("persona:" ++ p) &&
    decide (mkRat 1 2 ≤ r.importance) &&
    decide (now - 7 ≤ r.timestamp)))).take 2

/-- Modelled from the spec's merge wording: drop duplicates by id keeping the
earlier (Pass A) occurrence, expressed as a left fold that appends a row only
when its id is not yet present. -/
def dedupByIdSpec (l : List EpisodicRow) : List EpisodicRow :=
  l.foldl (fun acc m => if acc.any (fun x => x.id = m.id) then acc
    else acc ++ [m]) []

/-- Modelled from the spec: concatenate Pass A then Pass B, dedup by id with
Pass A winning, truncate to the hard cap of 5. -/
def twoPassMergeSpec (db : Db) (now : Int) (topics : List String)
    (p : String) : List EpisodicRow :=
  (dedupByIdSpec (passASpec db now topics p ++ passBSpec db now p)).take 5

/-- A two-persona store in which the persona names `"Al"` and `"Alex"` share
a tag: the substring `LIKE '%persona:Al%'` also matches
`"conversation|persona:Alex"`. -/
def prefixPersonaDb : Db :=
  { emptyDb with
    episodic :=
      [{ id := 1, timestamp := 0, content := "about billing", context := "",
         importance := mkRat 1 2, valence := 0, arousal := 0,
         tags := some ["x"],
         relationshipContext := "conversation|persona:Al",
         consolidated := false },
       { id := 2, timestamp := 0, content := "other talk", context := "",
         importance := mkRat 4 5, valence := 0, arousal := 0,
         tags := some ["x"],
         relationshipContext := "conversation|persona:Alex",
         consolidated := false }],
    nextEpisodicId := 3 }

/-- A store holding a single memory written for persona `"Alexandra"`. -/
def alexandraDb : Db :=
  { emptyDb with
    episodic :=
      [{ id := 1, timestamp := 0, content := "hi", context := "",
         importance := mkRat 9 10, valence := 0, arousal := 0,
         tags := none,
         relationshipContext := "conversation|persona:Alexandra",
         consolidated := false }],
    nextEpisodicId := 2 }

/-- A single-persona store used to instantiate the universally quantified
theorems on concrete data. -/
def mo11yDb : Db :=
  { emptyDb with
    episodic :=
      [{ id := 1, timestamp := -40, content := "big event", context := "",
         importance := mkRat 9 10, valence := 0, arousal := 0,
         tags := some ["billing"],
         relationshipContext := "conversation|persona:Mo11y",
         consolidated := false },
       { id := 2, timestamp := -2, content := "small note", context := "",
         importance := mkRat 1 5, valence := 0, arousal := 0,
         tags := some ["billing"],
         relationshipContext := "conversation|persona:Mo11y",
         consolidated := false },
       { id := 3, timestamp := -1, content := "pay the bill", context := "",
         importance := mkRat 3 5, valence := 0, arousal := 0,
         tags := some ["billing"],
         relationshipContext := "conversation|persona:Mo11y",
         consolidated := false }],
    nextEpisodicId := 4 }

/-- A store with one preference row, under a different category/key than the
lookups exercised against it. -/
def onePrefDb : Db :=
  { emptyDb with
    prefs := [{ category := "ui", key := "theme", value := "dark",
                confidence := 1, lastUpdated := 0 }] }

theorem mem_insertOrd (le : α → α → Bool) (x : α) (l : List α) (a : α) :
    a ∈ insertOrd le x l ↔ a = x ∨ a ∈ l := by
  induction l with
  | nil => simp [insertOrd]
  | cons y ys ih =>
    simp only [insertOrd]
    split <;> (simp [ih]; try tauto)

theorem mem_sortBy (le : α → α → Bool) (l : List α) (a : α) :
    a ∈ sortBy le l ↔ a ∈ l := by
  suffices h : ∀ acc, a ∈ l.foldl (fun acc x => insertOrd le x acc) acc ↔ a ∈ acc ∨ a ∈ l by
    simpa [sortBy] using h []
  induction l with
  | nil => simp
  | cons x xs ih =>
    intro acc
    simp only [List.foldl_cons, ih, mem_insertOrd, List.mem_cons]
    tauto

theorem sortBy_nil (le : α → α → Bool) : sortBy le [] = [] := rfl

theorem find?_append_of_none {p : α → Bool} {l1 l2 : List α}
    (h : l1.find? p = none) : (l1 ++ l2).find? p = l2.find? p := by
  induction l1 with
  | nil => simp
  | cons x xs ih =>
    cases hp : p x with
    | true => simp [List.find?, hp] at h
    | false =>
      simp only [List.find?, hp] at h
      simpa [List.find?, hp] using ih h

theorem find?_key_map_bump (l : List SemanticRow) (k : String) (now : Int) :
    (l.map (fun r => if r.key = k then
        { r with lastAccessed := some now, accessCount := r.accessCount + 1 }
      else r)).find? (fun r => r.key = k) =
    (l.find? (fun r => r.key = k)).map (fun r =>
      { r with lastAccessed := some now, accessCount := r.accessCount + 1 }) := by
  induction l with
  | nil => rfl
  | cons r l ih =>
    by_cases hr : r.key = k
    · simp [List.find?, hr]
    · simp [List.find?, hr, ih]

/-- C1 (counterexample): the claim fails as stated — with the distinct
personas `A = "Alex"` and `B = "Alexandra"`, `recall_episodic` called with
`persona="Alex"` returns the memory whose `relationship_context` was written
with `persona:Alexandra`, because the persona filter is the substring test
`relationship_context LIKE '%persona:Alex%'`. -/
theorem c1_counterexample :
    (recallEpisodic alexandraDb 0 10 (mkRat 0 1) [] none
        (some ("Alex"))).map (fun r => r.id) = [1] ∧
    alexandraDb.episodic.map (fun r => (r.id, r.relationshipContext)) =
      [(1, "conversation|persona:Alexandra")] :=
  ⟨by decide, by decide⟩

/-- C1 (amended): persona isolation holds exactly up to the `LIKE` substring
semantics — for a non-empty persona `p`, every memory returned by
`recall_episodic` has `persona:p` as an (ASCII-case-insensitive) substring of
its `relationship_context`; hence a memory written for a different persona is
never returned unless `persona:p` occurs inside its context string (as
happens when `p` is a prefix of the other persona's name). -/
theorem c1_recall_persona_substring (db : Db) (now : Int) (limit : Nat)
    (minImportance : ℚ) (tags : List String) (daysBack : Option Int)
    (p : String) (m : EpisodicRow) (hp : p ≠ "")
    (hm : m ∈ recallEpisodic db now limit minImportance tags daysBack (some p)) :
    sqlLike m.relationshipContext ("persona:" ++ p) = true := by
  have h1 : m ∈ sortBy epLe (db.episodic.filter
      (recallEpisodicPred now minImportance tags daysBack (some p))) :=
    List.mem_of_mem_take hm
  have h2 := (List.mem_filter.mp ((mem_sortBy _ _ _).mp h1)).2
  have hpt : pyTruthyStr (some p) = true := by
    simp [pyTruthyStr, hp]
  simp only [recallEpisodicPred, hpt, if_true, Bool.and_eq_true] at h2
  exact h2.1.1.2

/-- C1 (witness for the amended theorem): instantiated on the concrete
single-memory store. -/
theorem c1_recall_persona_substring_witness :
    sqlLike ("conversation|persona:Alexandra") ("persona:" ++ "Alexandra") =
      true :=
  c1_recall_persona_substring alexandraDb 0 10 (mkRat 0 1) [] none
    ("Alexandra")
    { id := 1, timestamp := 0, content := "hi", context := "",
      importance := mkRat 9 10, valence := 0, arousal := 0,
      tags := none,
      relationshipContext := "conversation|persona:Alexandra",
      consolidated := false }
    (by decide) (by decide)

/-- C4 (counterexample): the claim fails as stated — `remember_episodic`
stores the importance argument unchanged, so `importance = -0.4` is stored as
`-0.4` (not clamped to `0.0`) and `importance = 1.7` is stored as `1.7` (not
clamped to `1.0`). -/
theorem c4_counterexample :
    ((rememberEpisodic emptyDb 0 "x" "" (mkRat (-2) 5) 0 0 [] "").1.episodic.map
        (fun r => r.importance) = [mkRat (-2) 5] ∧ mkRat (-2) 5 < 0) ∧
    ((rememberEpisodic emptyDb 0 "x" "" (mkRat 17 10) 0 0 [] "").1.episodic.map
        (fun r => r.importance) = [mkRat 17 10] ∧ 1 < mkRat 17 10) :=
  ⟨⟨by decide, by decide⟩, ⟨by decide, by decide⟩⟩

/-- C4 (amended): `remember_episodic` never rejects an out-of-range
importance, but it also never normalizes it — the stored `importance_score`
is exactly the input value, and the write appends one row and returns the
fresh id. -/
theorem c4_importance_stored_unclamped (db : Db) (now : Int)
    (content context : String) (importance valence arousal : ℚ)
    (tags : List String) (rc : String) :
    (rememberEpisodic db now content context importance valence arousal tags
        rc).1.episodic =
      db.episodic ++
        [{ id := db.nextEpisodicId, timestamp := now, content := content,
           context := context, importance := importance, valence := valence,
           arousal := arousal, tags := tagsColumn tags,
           relationshipContext := rc, consolidated := false }] ∧
    (rememberEpisodic db now content context importance valence arousal tags
        rc).2 = db.nextEpisodicId :=
  ⟨rfl, rfl⟩

/-- C7 (counterexample): the claim fails as stated — `remember_episodic`
performs no content validation, so the empty string is stored as a row
(content `""`) and the call returns the new id `1` instead of failing with a
`ValidationError` (no such error exists in the code). -/
theorem c7_counterexample :
    (rememberEpisodic emptyDb 0 "" "" (mkRat 1 2) 0 0 [] "ctx").2 = 1 ∧
    (rememberEpisodic emptyDb 0 "" "" (mkRat 1 2) 0 0 [] "ctx").1.episodic.map
      (fun r => r.content) = [""] :=
  ⟨by decide, by decide⟩

/-- C7 (amended): `remember_episodic` succeeds for every content value,
including the empty string: it always appends exactly one row carrying the
given content and returns the new row id. -/
theorem c7_no_content_validation (db : Db) (now : Int)
    (content context : String) (importance valence arousal : ℚ)
    (tags : List String) (rc : String) :
    (rememberEpisodic db now content context importance valence arousal tags
        rc).2 = db.nextEpisodicId ∧
    (rememberEpisodic db now content context importance valence arousal tags
        rc).1.episodic.length = db.episodic.length + 1 ∧
    ∃ row, (rememberEpisodic db now content context importance valence arousal
        tags rc).1.episodic = db.episodic ++ [row] ∧ row.content = content := by
  refine ⟨rfl, ?_, ?_⟩
  · simp [rememberEpisodic]
  · exact ⟨_, rfl, rfl⟩

/-- C9 (counterexample): the claim fails as stated — the preference lookup is
a query operation, and when no stored row matches (here: a store holding only
a `("ui", "theme")` preference, queried for `("food", "spice")`)
`get_preference` returns `None` (null), which the claim says never happens. -/
theorem c9_counterexample :
    getPreference onePrefDb ("food") ("spice") = none ∧
    onePrefDb.prefs ≠ [] :=
  ⟨by decide, by decide⟩

/-- C9 (amended): empty matches are not errors for the collection-returning
queries — episodic recall, semantic recall by key, and related-memory lookup
with an absent target return an empty collection without raising — while the
preference lookup signals a missing row with `None` (a null sentinel, not an
error and not an empty collection). -/
theorem c9_empty_results (db : Db) :
    (∀ now limit minImportance tags daysBack persona,
      (∀ r ∈ db.episodic,
        recallEpisodicPred now minImportance tags daysBack persona r = false) →
      recallEpisodic db now limit minImportance tags daysBack persona = []) ∧
    (∀ now k, (∀ r ∈ db.semantic, r.key ≠ k) →
      recallSemanticKey db now k = (none, db)) ∧
    (∀ mid limit persona, (∀ r ∈ db.episodic, r.id ≠ mid) →
      findRelatedMemories db mid limit persona = .ok []) ∧
    (∀ c k, (∀ p ∈ db.prefs, ¬(p.category = c ∧ p.key = k)) →
      getPreference db c k = none) := by
  refine ⟨?_, ?_, ?_, ?_⟩
  · intro now limit minImportance tags daysBack persona h
    unfold recallEpisodic
    have hf : db.episodic.filter
        (recallEpisodicPred now minImportance tags daysBack persona) = [] :=
      List.filter_eq_nil_iff.mpr (fun r hr => by simp [h r hr])
    rw [hf, sortBy_nil, List.take_nil]
  · intro now k h
    unfold recallSemanticKey
    have hf : db.semantic.find? (fun r => r.key = k) = none :=
      List.find?_eq_none.mpr (fun r hr => by simp [h r hr])
    rw [hf]
  · intro mid limit persona h
    unfold findRelatedMemories
    have hf : db.episodic.find? (fun r => r.id = mid) = none :=
      List.find?_eq_none.mpr (fun r hr => by simp [h r hr])
    rw [hf]
  · intro c k h
    unfold getPreference
    have hf : db.prefs.find? (fun p => p.category = c && p.key = k) = none :=
      List.find?_eq_none.mpr (fun p hp => by
        have := h p hp
        simp only [Bool.and_eq_true, decide_eq_true_eq]
        tauto)
    rw [hf]
    rfl

/-- C9 (witness for the amended theorem): the four branches instantiated on
the one-preference store, where nothing matches any of the queries. -/
theorem c9_empty_results_witness :
    recallEpisodic onePrefDb 0 10 (mkRat 1 2) [] none none = [] ∧
    recallSemanticKey onePrefDb 0 "k" = (none, onePrefDb) ∧
    findRelatedMemories onePrefDb 7 5 none = .ok [] ∧
    getPreference onePrefDb ("food") ("spice") = none :=
  ⟨(c9_empty_results onePrefDb).1 0 10 (mkRat 1 2) [] none none
      (by intro r hr; simp [onePrefDb, emptyDb] at hr),
   (c9_empty_results onePrefDb).2.1 0 "k"
      (by intro r hr; simp [onePrefDb, emptyDb] at hr),
   (c9_empty_results onePrefDb).2.2.1 7 5 none
      (by intro r hr; simp [onePrefDb, emptyDb] at hr),
   (c9_empty_results onePrefDb).2.2.2 ("food") ("spice")
      (by intro p hp; simp [onePrefDb, emptyDb] at hp; simp [hp])⟩

/-- C10: a keyed `recall_semantic` returns the record built from the row as
fetched **before** this call's own bump — the stored row afterwards has
`access_count` one greater than the returned `access_count` and
`last_accessed` set to the call time. -/
theorem c10_recall_semantic_stale_read (db : Db) (now : Int) (k : String)
    (row : SemanticRow)
    (h : db.semantic.find? (fun r => r.key = k) = some row) :
    (recallSemanticKey db now k).1 =
      some { key := row.key, value := row.value, confidence := row.confidence,
             lastAccessed := row.lastAccessed, accessCount := row.accessCount } ∧
    ((recallSemanticKey db now k).2.semantic.find? (fun r => r.key = k)).map
        (fun r => r.accessCount) = some (row.accessCount + 1) ∧
    ((recallSemanticKey db now k).2.semantic.find? (fun r => r.key = k)).map
        (fun r => r.lastAccessed) = some (some now) := by
  unfold recallSemanticKey
  rw [h]
  refine ⟨rfl, ?_, ?_⟩ <;>
    · rw [find?_key_map_bump, h]
      have hk : row.key = k := by
        have := List.find?_some h
        simpa using this
      simp [hk]

/-- C10 (witness): instantiated on a store holding the single fact `"k"` with
`access_count = 1`. -/
theorem c10_recall_semantic_stale_read_witness :
    (recallSemanticKey (rememberSemantic emptyDb 0 "k" "v1" 1 none) 5 "k").1 =
      some { key := "k", value := "v1", confidence := 1,
             lastAccessed := some 0, accessCount := 1 } ∧
    (((recallSemanticKey (rememberSemantic emptyDb 0 "k" "v1" 1 none) 5
        "k").2.semantic.find? (fun r => r.key = "k")).map
        (fun r => r.accessCount) = some (1 + 1)) ∧
    (((recallSemanticKey (rememberSemantic emptyDb 0 "k" "v1" 1 none) 5
        "k").2.semantic.find? (fun r => r.key = "k")).map
        (fun r => r.lastAccessed) = some (some 5)) :=
  c10_recall_semantic_stale_read (rememberSemantic emptyDb 0 "k" "v1" 1 none)
    5 "k"
    { id := 1, key := "k", value := "v1", confidence := 1,
      sourceMemoryId := none, lastAccessed := some 0, accessCount := 1,
      createdAt := 0 }
    (by decide)

theorem rememberSemantic_semantic_eq (db : Db) (now : Int) (k v : String)
    (c : ℚ) (s : Option Nat) :
    (rememberSemantic db now k v c s).semantic =
      db.semantic.filter (fun r => r.key ≠ k) ++
        [{ id := db.nextSemanticId, key := k, value := v, confidence := c,
           sourceMemoryId := s, lastAccessed := some now,
           accessCount := (((db.semantic.find? (fun r => r.key = k)).map
             (fun r => r.accessCount)).getD 0) + 1, createdAt := now }] := rfl

theorem filter_key_of_filter_ne (l : List SemanticRow) (k : String) :
    (l.filter (fun r => r.key ≠ k)).filter (fun r => r.key = k) = [] := by
  refine List.filter_eq_nil_iff.mpr ?_
  intro r hr
  have h2 := (List.mem_filter.mp hr).2
  simpa using h2

/-- C6: the semantic upsert is last-write-wins — on a store with no row for
key `k`, writing `(k, v1)` then `(k, v2)` leaves exactly one row with key
`k`, holding `v2` and the latest confidence, with `access_count = 1` after
the first write and `2` after the second. -/
theorem c6_semantic_upsert_last_write_wins (db : Db) (now1 now2 : Int)
    (k v1 v2 : String) (c1 c2 : ℚ) (h : ∀ r ∈ db.semantic, r.key ≠ k) :
    ((rememberSemantic db now1 k v1 c1 none).semantic.filter
        (fun r => r.key = k)).map
        (fun r => (r.value, r.confidence, r.accessCount)) = [(v1, c1, 1)] ∧
    ((rememberSemantic (rememberSemantic db now1 k v1 c1 none) now2 k v2 c2
        none).semantic.filter (fun r => r.key = k)).map
        (fun r => (r.value, r.confidence, r.accessCount)) = [(v2, c2, 2)] := by
  have hfind : db.semantic.find? (fun r => r.key = k) = none :=
    List.find?_eq_none.mpr (fun r hr => by simp [h r hr])
  have hfilterNone : (db.semantic.filter (fun r => r.key ≠ k)).find?
      (fun r => r.key = k) = none :=
    List.find?_eq_none.mpr (fun r hr => by
      have h2 := (List.mem_filter.mp hr).2
      simpa using h2)
  constructor
  · rw [rememberSemantic_semantic_eq, hfind, List.filter_append,
      filter_key_of_filter_ne]
    simp
  · rw [rememberSemantic_semantic_eq, rememberSemantic_semantic_eq, hfind,
      List.filter_append, filter_key_of_filter_ne,
      find?_append_of_none hfilterNone]
    simp [List.find?, List.filter_append, filter_key_of_filter_ne]

/-- C6 (witness): the two writes on the empty store. -/
theorem c6_semantic_upsert_last_write_wins_witness :
    ((rememberSemantic emptyDb 0 "k" "v1" 1 none).semantic.filter
        (fun r => r.key = "k")).map
        (fun r => (r.value, r.confidence, r.accessCount)) = [("v1", 1, 1)] ∧
    ((rememberSemantic (rememberSemantic emptyDb 0 "k" "v1" 1 none) 1 "k"
        "v2" (mkRat 1 2) none).semantic.filter (fun r => r.key = "k")).map
        (fun r => (r.value, r.confidence, r.accessCount)) =
      [("v2", mkRat 1 2, 2)] :=
  c6_semantic_upsert_last_write_wins emptyDb 0 1 "k" "v1" "v2" 1 (mkRat 1 2)
    (by intro r hr; simp [emptyDb] at hr)

/-- C5: retention cascade completeness — after `clear_old_memories`, no
remaining media, association, or semantic row references a deleted episodic
id, and when the selection is empty the call returns the all-zero count map
and leaves the store unchanged. -/
theorem c5_retention_cascade (db : Db) (now daysOld : Int)
    (minImportance : ℚ) :
    (∀ m ∈ (clearOldMemories db now daysOld minImportance).1.media,
        m.memoryId ∉ clearOldSelection db now daysOld minImportance) ∧
    (∀ a ∈ (clearOldMemories db now daysOld minImportance).1.assocs,
        a.memoryId1 ∉ clearOldSelection db now daysOld minImportance ∧
        a.memoryId2 ∉ clearOldSelection db now daysOld minImportance) ∧
    (∀ s ∈ (clearOldMemories db now daysOld minImportance).1.semantic,
        ∀ i ∈ clearOldSelection db now daysOld minImportance,
          s.sourceMemoryId ≠ some i) ∧
    (clearOldSelection db now daysOld minImportance = [] →
      (clearOldMemories db now daysOld minImportance).1 = db ∧
      ∀ p ∈ (clearOldMemories db now daysOld minImportance).2, p.2 = 0) := by
  by_cases hsel : (clearOldSelection db now daysOld minImportance).isEmpty
  · have hnil : clearOldSelection db now daysOld minImportance = [] :=
      List.isEmpty_iff.mp hsel
    unfold clearOldMemories
    rw [if_pos hsel]
    refine ⟨?_, ?_, ?_, ?_⟩
    · intro m _; rw [hnil]; simp
    · intro a _; rw [hnil]; simp
    · intro s _ i hi; rw [hnil] at hi; simp at hi
    · intro _
      refine ⟨rfl, ?_⟩
      intro p hp
      simp only [List.mem_cons, List.not_mem_nil, or_false] at hp
      rcases hp with h | h | h | h <;> simp [h]
  · unfold clearOldMemories
    rw [if_neg hsel]
    refine ⟨?_, ?_, ?_, ?_⟩
    · intro m hm
      have h2 := (List.mem_filter.mp hm).2
      simpa using h2
    · intro a ha
      have h2 := (List.mem_filter.mp ha).2
      constructor <;> · simp at h2; tauto
    · intro s hs i hi
      have h2 := (List.mem_filter.mp hs).2
      cases hsrc : s.sourceMemoryId with
      | none => simp
      | some j =>
        rw [hsrc] at h2
        simp only [Bool.not_eq_true] at h2
        intro hcontra
        have hj : j = i := by injection hcontra
        subst hj
        simp [hi] at h2
    · intro hnil
      rw [hnil] at hsel
      simp at hsel

/-- C5 (witness): instantiated on the concrete three-memory store (both an
empty-selection call and a deleting call are exercised elsewhere; the
theorem instance here covers the deleting parameters). -/
theorem c5_retention_cascade_witness :
    (∀ m ∈ (clearOldMemories mo11yDb 0 30 (mkRat 3 10)).1.media,
        m.memoryId ∉ clearOldSelection mo11yDb 0 30 (mkRat 3 10)) ∧
    (∀ a ∈ (clearOldMemories mo11yDb 0 30 (mkRat 3 10)).1.assocs,
        a.memoryId1 ∉ clearOldSelection mo11yDb 0 30 (mkRat 3 10) ∧
        a.memoryId2 ∉ clearOldSelection mo11yDb 0 30 (mkRat 3 10)) ∧
    (∀ s ∈ (clearOldMemories mo11yDb 0 30 (mkRat 3 10)).1.semantic,
        ∀ i ∈ clearOldSelection mo11yDb 0 30 (mkRat 3 10),
          s.sourceMemoryId ≠ some i) ∧
    (clearOldSelection mo11yDb 0 30 (mkRat 3 10) = [] →
      (clearOldMemories mo11yDb 0 30 (mkRat 3 10)).1 = mo11yDb ∧
      ∀ p ∈ (clearOldMemories mo11yDb 0 30 (mkRat 3 10)).2, p.2 = 0) :=
  c5_retention_cascade mo11yDb 0 30 (mkRat 3 10)

theorem consolidationStep_episodic (now : Int) (db : Db) (a : EpisodicRow) :
    (consolidationStep now db a).episodic =
      db.episodic.map (fun r =>
        if r.id = a.id then { r with consolidated := true } else r) := by
  unfold consolidationStep markConsolidated
  split <;> rfl

theorem consolidation_foldl_episodic (now : Int) (l : List EpisodicRow)
    (db : Db) :
    (l.foldl (consolidationStep now) db).episodic =
      db.episodic.map (fun r =>
        if r.id ∈ l.map (fun x => x.id) then { r with consolidated := true }
        else r) := by
  induction l generalizing db with
  | nil => simp
  | cons a l ih =>
    rw [List.foldl_cons, ih, consolidationStep_episodic, List.map_map]
    refine List.map_congr_left ?_
    intro r _
    by_cases h1 : r.id = a.id
    · simp [Function.comp, h1]
    · simp [Function.comp, h1]

/-- C3: consolidation is idempotent — with the same reference time and
threshold, running `consolidate_memories` twice leaves exactly the state of
running it once (in particular the same number of semantic facts), and the
second run's selection of episodic rows is empty, because the `consolidated`
flag excludes every already-processed row. -/
theorem c3_consolidation_idempotent (db : Db) (now : Int) (d : Int) :
    consolidateMemories (consolidateMemories db now d) now d =
      consolidateMemories db now d ∧
    consolidationSelection (consolidateMemories db now d) now d = [] := by
  have hsel : consolidationSelection (consolidateMemories db now d) now d
      = [] := by
    unfold consolidationSelection
    have hfilter : (consolidateMemories db now d).episodic.filter
        (fun r => !r.consolidated && decide (r.timestamp < now - d)) = [] := by
      refine List.filter_eq_nil_iff.mpr ?_
      intro r2 hr2
      unfold consolidateMemories at hr2
      rw [consolidation_foldl_episodic] at hr2
      obtain ⟨r, hr, hmap⟩ := List.mem_map.mp hr2
      by_cases hid : r.id ∈ (consolidationSelection db now d).map
          (fun x => x.id)
      · rw [if_pos hid] at hmap
        intro hcontra
        rw [← hmap] at hcontra
        simp at hcontra
      · rw [if_neg hid] at hmap
        intro hcontra
        rw [← hmap] at hcontra
        apply hid
        have hrsel : r ∈ consolidationSelection db now d := by
          unfold consolidationSelection
          exact (mem_sortBy _ _ _).mpr (List.mem_filter.mpr ⟨hr, hcontra⟩)
        exact List.mem_map.mpr ⟨r, hrsel, rfl⟩
    rw [hfilter, sortBy_nil]
  refine ⟨?_, hsel⟩
  conv_lhs => rw [consolidateMemories]
  rw [hsel, List.foldl_nil]

/-- C8 (counterexample): the claim fails as stated — in a store whose
personas are `"Al"` and `"Alex"`, `find_related_memories` on the `"Al"`
target (deriving persona `"Al"` from its tag) returns the memory of persona
`"Alex"`, because the filter is the substring test
`relationship_context LIKE '%persona:Al%'`. -/
theorem c8_counterexample :
    findRelatedMemories prefixPersonaDb 1 5 none =
      .ok [{ id := 2, content := "other talk",
             importanceScore := mkRat 4 5 }] ∧
    prefixPersonaDb.episodic.map (fun r => (r.id, r.relationshipContext)) =
      [(1, "conversation|persona:Al"), (2, "conversation|persona:Alex")] :=
  ⟨rfl, by decide⟩

/-- C8 (amended): `find_related_memories` never returns the target itself,
and — when the effective persona (the supplied one, or the one parsed from
the target's `relationship_context`) is a non-empty name `P` — every
returned record corresponds to a stored row whose `relationship_context`
contains the substring `persona:P`; cross-persona exclusion therefore holds
exactly when `persona:P` does not occur in the other persona's context
string (it fails when one persona name is a prefix of another). -/
theorem c8_find_related_scope (db : Db) (mid : Nat) (limit : Nat)
    (persona : Option String) (l : List RelatedRecord)
    (h : findRelatedMemories db mid limit persona = .ok l) :
    ∀ rec ∈ l, rec.id ≠ mid ∧
      (∀ target, db.episodic.find? (fun r => r.id = mid) = some target →
        ∀ P, effectivePersona persona target.relationshipContext = some P →
          P ≠ "" →
          ∃ r ∈ db.episodic, r.id = rec.id ∧
            sqlLike r.relationshipContext ("persona:" ++ P) = true) := by
  intro rec hrec
  unfold findRelatedMemories at h
  cases hfind : db.episodic.find? (fun r => r.id = mid) with
  | none =>
    rw [hfind] at h
    simp only [Except.ok.injEq] at h
    rw [← h] at hrec
    simp at hrec
  | some target =>
    rw [hfind] at h
    dsimp only at h
    have main : ∀ pred : EpisodicRow → Bool,
        rec ∈ ((sortBy impLe (db.episodic.filter (fun r =>
            r.id ≠ mid && pred r &&
            (if pyTruthyStr (effectivePersona persona
                target.relationshipContext) then
              sqlLike r.relationshipContext ("persona:" ++
                (effectivePersona persona target.relationshipContext).getD (""))
            else true)))).take limit).map (fun r =>
          { id := r.id, content := r.content,
            importanceScore := r.importance : RelatedRecord }) →
        rec.id ≠ mid ∧
          (∀ target2, some target = some target2 →
            ∀ P, effectivePersona persona target2.relationshipContext =
                some P → P ≠ "" →
            ∃ r ∈ db.episodic, r.id = rec.id ∧
              sqlLike r.relationshipContext ("persona:" ++ P) = true) := by
      intro pred hmem
      obtain ⟨r, hrTake, hrEq⟩ := List.mem_map.mp hmem
      have hrFilter := (mem_sortBy _ _ _).mp (List.mem_of_mem_take hrTake)
      obtain ⟨hrDb, hpred⟩ := List.mem_filter.mp hrFilter
      simp only [Bool.and_eq_true, decide_eq_true_eq] at hpred
      constructor
      · rw [← hrEq]
        exact hpred.1.1
      · intro target2 hfind2 P hP hPne
        have htarget : target2 = target := by injection hfind2.symm
        subst htarget
        refine ⟨r, hrDb, by rw [← hrEq], ?_⟩
        have hcond := hpred.2
        rw [hP] at hcond
        have htruthy : pyTruthyStr (some P) = true := by
          simp [pyTruthyStr, hPne]
        rw [htruthy, if_pos rfl] at hcond
        simpa using hcond
    by_cases htags : (target.tags.getD []).isEmpty
    · rw [if_pos htags] at h
      by_cases hkw : (((pyWords (pyLower target.content)).take 5).eraseDups).isEmpty
      · rw [if_pos hkw] at h
        simp at h
      · rw [if_neg hkw] at h
        simp only [Except.ok.injEq] at h
        rw [← h] at hrec
        exact main _ hrec
    · rw [if_neg htags] at h
      simp only [Except.ok.injEq] at h
      rw [← h] at hrec
      exact main _ hrec

/-- C8 (witness for the amended theorem): instantiated on the two-persona
store above, where the lookup returns the single record with id 2 and the
effective persona parsed from the target is `"Al"`. -/
theorem c8_find_related_scope_witness :
    ({ id := 2, content := "other talk",
       importanceScore := mkRat 4 5 : RelatedRecord }).id ≠ 1 ∧
    ∃ r ∈ prefixPersonaDb.episodic,
      r.id = ({ id := 2, content := "other talk",
                importanceScore := mkRat 4 5 : RelatedRecord }).id ∧
      sqlLike r.relationshipContext ("persona:" ++ "Al") = true :=
  have H := c8_find_related_scope prefixPersonaDb 1 5 none
    [{ id := 2, content := "other talk", importanceScore := mkRat 4 5 }] rfl
    { id := 2, content := "other talk", importanceScore := mkRat 4 5 }
    (by decide)
  ⟨H.1,
   H.2
     { id := 1, timestamp := 0, content := "about billing", context := "",
       importance := mkRat 1 2, valence := 0, arousal := 0,
       tags := some ["x"],
       relationshipContext := "conversation|persona:Al",
       consolidated := false }
     (by decide) ("Al") (by decide) (by decide)⟩

theorem dedupByIdGo_seen_congr (l : List EpisodicRow) (s1 s2 : List Nat)
    (h : ∀ i, i ∈ s1 ↔ i ∈ s2) : dedupByIdGo s1 l = dedupByIdGo s2 l := by
  induction l generalizing s1 s2 with
  | nil => rfl
  | cons m rest ih =>
    unfold dedupByIdGo
    by_cases hm : m.id ∈ s1
    · rw [if_pos hm, if_pos ((h m.id).mp hm)]
      exact ih s1 s2 h
    · rw [if_neg hm, if_neg (fun c => hm ((h m.id).mpr c))]
      congr 1
      apply ih
      intro i
      simp [h i]

theorem dedupByIdSpec_eq (l : List EpisodicRow) :
    dedupByIdSpec l = dedupById l := by
  suffices hgen : ∀ (rest : List EpisodicRow) (acc : List EpisodicRow),
      rest.foldl (fun acc m => if acc.any (fun x => x.id = m.id) then acc
        else acc ++ [m]) acc =
      acc ++ dedupByIdGo (acc.map (fun x => x.id)) rest by
    have h := hgen l []
    simpa [dedupByIdSpec, dedupById] using h
  have hcons : ∀ (seen : List Nat) (m : EpisodicRow)
      (rest : List EpisodicRow),
      dedupByIdGo seen (m :: rest) =
        if m.id ∈ seen then dedupByIdGo seen rest
        else m :: dedupByIdGo (m.id :: seen) rest := fun _ _ _ => rfl
  intro rest
  induction rest with
  | nil => intro acc; simp [dedupByIdGo]
  | cons m tail ih =>
    intro acc
    rw [List.foldl_cons]
    by_cases hm : acc.any (fun x => x.id = m.id)
    · have hmem : m.id ∈ acc.map (fun x => x.id) := by
        obtain ⟨x, hx, hxid⟩ := List.any_eq_true.mp hm
        exact List.mem_map.mpr ⟨x, hx, by simpa using hxid⟩
      rw [if_pos hm, ih, hcons, if_pos hmem]
    · have hmem : m.id ∉ acc.map (fun x => x.id) := by
        intro hc
        obtain ⟨x, hx, hxid⟩ := List.mem_map.mp hc
        exact hm (List.any_eq_true.mpr ⟨x, hx, by simpa using hxid⟩)
      rw [if_neg hm, ih, hcons, if_neg hmem, List.append_assoc]
      congr 1
      rw [List.singleton_append]
      congr 1
      apply dedupByIdGo_seen_congr
      intro i
      simp [or_comm]

theorem passA_eq (db : Db) (now : Int) (topics : List String) (p : String)
    (hp : p ≠ "") :
    (if topics.isEmpty then [] else
      recallEpisodic db now 3 (mkRat 3 10) (topics.take 3) (some 30)
        (some p)) = passASpec db now topics p := by
  by_cases ht : topics.isEmpty
  · rw [if_pos ht]
    have hnil : topics = [] := List.isEmpty_iff.mp ht
    subst hnil
    unfold passASpec
    have hfil : db.episodic.filter (fun r =>
        sqlLike r.relationshipContext ("persona:" ++ p) &&
        (([] : List String).take 3).any (fun t => tagLikeMatch r.tags t) &&
        decide (mkRat 3 10 ≤ r.importance) &&
        decide (now - 30 ≤ r.timestamp)) = [] :=
      List.filter_eq_nil_iff.mpr (fun r _ => by simp)
    rw [hfil, sortBy_nil]
    rfl
  · rw [if_neg ht]
    unfold recallEpisodic passASpec
    congr 2
    apply List.filter_congr
    intro r _
    have h1 : pyTruthyStr (some p) = true := by simp [pyTruthyStr, hp]
    have h2 : (topics.take 3).isEmpty = false := by
      cases topics with
      | nil => simp at ht
      | cons a t => simp [List.take]
    have h3 : pyTruthyInt (some 30) = true := by simp [pyTruthyInt]
    simp only [recallEpisodicPred, h1, h2, h3, if_true, Option.getD_some,
      Bool.if_false_right, Bool.if_true_left]
    cases hA : decide (mkRat 3 10 ≤ r.importance) <;>
      cases hB : sqlLike r.relationshipContext ("persona:" ++ p) <;>
        cases hC : decide (now - 30 ≤ r.timestamp) <;>
          cases hD : (topics.take 3).any (fun t => tagLikeMatch r.tags t) <;>
            simp [hA, hB, hC, hD]

theorem passB_eq (db : Db) (now : Int) (p : String) (hp : p ≠ "") :
    recallEpisodic db now 2 (mkRat 1 2) [] (some 7) (some p) =
      passBSpec db now p := by
  unfold recallEpisodic passBSpec
  congr 2
  apply List.filter_congr
  intro r _
  have h1 : pyTruthyStr (some p) = true := by simp [pyTruthyStr, hp]
  have h3 : pyTruthyInt (some 7) = true := by simp [pyTruthyInt]
  simp only [recallEpisodicPred, h1, h3, if_true, Option.getD_some,
    List.isEmpty_nil, if_true]
  cases hA : decide (mkRat 1 2 ≤ r.importance) <;>
    cases hB : sqlLike r.relationshipContext ("persona:" ++ p) <;>
      cases hC : decide (now - 7 ≤ r.timestamp) <;>
        simp [hA, hB, hC]

/-- C2: the two-pass ranking merge — for a fixed store, time and topic list,
`retrieve_memories` returns exactly the spec's description: Pass A (persona
and tag filter, minimum importance `0.3`, 30 days back, capped at 3)
concatenated with Pass B (persona filter, minimum importance `0.5`, 7 days
back, capped at 2), each ordered by importance then timestamp descending,
deduplicated by id with the Pass A occurrence kept, truncated to 5; and the
result of repeated calls on the same store is the same list. -/
theorem c2_two_pass_merge (db : Db) (now : Int) (topics : List String)
    (p : String) (hp : p ≠ "") :
    retrieveMemories db now topics p = twoPassMergeSpec db now topics p ∧
    retrieveMemories db now topics p = retrieveMemories db now topics p := by
  refine ⟨?_, rfl⟩
  unfold retrieveMemories twoPassMergeSpec
  rw [← passA_eq db now topics p hp, ← passB_eq db now p hp,
    dedupByIdSpec_eq]

/-- C2 (witness): instantiated on the concrete three-memory store for persona
`"Mo11y"` with topic `"billing"`. -/
theorem c2_two_pass_merge_witness :
    retrieveMemories mo11yDb 0 ["billing"] "Mo11y" =
      twoPassMergeSpec mo11yDb 0 ["billing"] "Mo11y" ∧
    retrieveMemories mo11yDb 0 ["billing"] "Mo11y" =
      retrieveMemories mo11yDb 0 ["billing"] "Mo11y" :=
  c2_two_pass_merge mo11yDb 0 ["billing"] "Mo11y" (by decide)
